import Mathlib

/-!
Shallow embedding of `espn_tools.py` (team-ID lookup, roster fetch, player-ID
lookup, team-stats fetch, recent-game selection) and the theorems settling the
specification claims about it.

JSON response bodies are modelled by `JVal`.  Python dictionary subscripting
(`d['k']`, raising `KeyError` / `TypeError`), the `in` containment test,
`dict.get` with a default, list indexing, and iteration are modelled by total
Lean functions in the `Except PyErr` monad, where `PyErr` distinguishes
`requests.exceptions.RequestException` (the only class caught by the source's
`except` clauses) from the uncaught `KeyError` / `TypeError` / `IndexError` /
`AttributeError` / `ValueError` families.

An HTTP request is modelled by an `HttpOutcome`: either the underlying client
raised (`netFail`, a `RequestException`), or a response with a numeric status
code and an already-decoded JSON body arrived.  `response.raise_for_status()`
raises `HTTPError` (a `RequestException`) exactly for status codes in
`[400, 600)`; `str(e)` of that error is abstracted by `statusErrMsg`.

The network visible to `get_recent_game_stats` is a `Network`: the outcome of
the schedule request plus, for every game identifier, the outcome of the
per-game summary request.
-/

/-- A JSON value, as decoded by `response.json()`. -/
inductive JVal where
  | str (s : String)
  | num (n : Int)
  | bool (b : Bool)
  | null
  | arr (elems : List JVal)
  | obj (fields : List (String × JVal))

/-- Python exceptions relevant to this code.  `reqExc` is
`requests.exceptions.RequestException` (caught by the source's `except`
clauses); all other constructors are uncaught by the source. -/
inductive PyErr where
  | reqExc (msg : String)
  | keyErr (key : String)
  | typeErr (msg : String)
  | idxErr
  | attrErr (msg : String)
  | valErr (s : String)
deriving DecidableEq

/-- Result of calling one of the Python functions: either a returned value or a
propagated (uncaught) exception. -/
inductive PyRet where
  | val (v : JVal)
  | raised (e : PyErr)

/-- The dict `{"error": msg}` returned by the guarded error paths. -/
def errDict (msg : String) : JVal := .obj [("error", .str msg)]

/-- `needle in haystack` for two Python strings: substring containment. -/
def listStarts : List Char → List Char → Bool
  | [], _ => true
  | _ :: _, [] => false
  | a :: as, b :: bs => a == b && listStarts as bs

/-- Substring test on character lists (Python `str.__contains__`). -/
def listHas (p : List Char) : List Char → Bool
  | [] => p.isEmpty
  | l@(_ :: t) => listStarts p l || listHas p t

/-- Python `==` between a list element and a string: only equal strings compare
equal; values of other JSON types compare unequal (no exception). -/
def strMem (k : String) (xs : List JVal) : Bool :=
  xs.any fun v => match v with | .str t => t == k | _ => false

/-- Python `v[k]` for a string key `k`: dict lookup (`KeyError` when absent),
`TypeError` on every other JSON value. -/
def getKey : JVal → String → Except PyErr JVal
  | .obj fs, k =>
    match fs.lookup k with
    | some v => .ok v
    | none => .error (.keyErr k)
  | _, k => .error (.typeErr ("subscript " ++ k))

/-- Python `v[i]` for a non-negative integer `i`: list indexing (`IndexError`
when out of range), string indexing (a one-character string), `TypeError`
otherwise. -/
def getIndex : JVal → Nat → Except PyErr JVal
  | .arr xs, i =>
    match xs[i]? with
    | some v => .ok v
    | none => .error .idxErr
  | .str t, i =>
    match t.toList[i]? with
    | some c => .ok (.str (String.mk [c]))
    | none => .error .idxErr
  | _, _ => .error (.typeErr "not indexable")

/-- Python `k in v`: dict key test, list membership, substring test on strings,
`TypeError` otherwise. -/
def hasKeyPy : JVal → String → Except PyErr Bool
  | .obj fs, k => .ok (fs.lookup k).isSome
  | .arr xs, k => .ok (strMem k xs)
  | .str t, k => .ok (listHas k.toList t.toList)
  | _, _ => .error (.typeErr "argument of type is not iterable")

/-- Python `v.get(k, d)`: only dicts have the `.get` attribute. -/
def pyGetD : JVal → String → JVal → Except PyErr JVal
  | .obj fs, k, d => .ok ((fs.lookup k).getD d)
  | _, _, _ => .error (.attrErr "get")

/-- Python `for x in v`: lists yield elements, dicts yield their keys, strings
yield one-character strings, everything else raises `TypeError`. -/
def iterElems : JVal → Except PyErr (List JVal)
  | .arr xs => .ok xs
  | .obj fs => .ok (fs.map fun p => .str p.1)
  | .str t => .ok (t.toList.map fun c => .str (String.mk [c]))
  | _ => .error (.typeErr "not iterable")

/-- Python `v == "lit"` for a string literal: equal strings compare equal,
any other JSON value compares unequal (never raises). -/
def pyEqStr (v : JVal) (lit : String) : Bool :=
  match v with | .str t => t == lit | _ => false

/-- Python `str.lower()` applied character by character; ASCII case folding
(the names this code compares are ASCII). -/
def pyStrLower (s : String) : String := String.mk (s.toList.map Char.toLower)

/-- Python `v.lower()`: only strings have the `.lower` attribute. -/
def pyLower : JVal → Except PyErr String
  | .str s => .ok (pyStrLower s)
  | _ => .error (.attrErr "lower")

/-- Outcome of one `requests.get` call: the client raised a
`RequestException`, or an HTTP response (status code and decoded JSON body)
arrived. -/
inductive HttpOutcome where
  | netFail (msg : String)
  | resp (status : Nat) (body : JVal)

/-- Stand-in for `str(requests.exceptions.HTTPError)` raised by
`raise_for_status` on status `s`. -/
def statusErrMsg (s : Nat) : String := toString s ++ " Error"

/-- `requests.get` followed by `response.raise_for_status()` and
`response.json()`: a client failure or a status in `[400, 600)` raises a
`RequestException`; otherwise the decoded body is produced. -/
def raiseForStatus : HttpOutcome → Except PyErr JVal
  | .netFail m => .error (.reqExc m)
  | .resp s b => if 400 ≤ s ∧ s < 600 then .error (.reqExc (statusErrMsg s)) else .ok b

/-- The network as seen by `get_recent_game_stats`: the outcome of the schedule
request, and the outcome of the summary request for each game identifier. -/
structure Network where
  schedule : HttpOutcome
  summary : JVal → HttpOutcome

/-! ### `datetime.strptime(s, "%Y-%m-%dT%H:%MZ")` -/

/-- Split off up to `n` leading decimal digits. -/
def splitDigits : Nat → List Char → List Char × List Char
  | 0, l => ([], l)
  | _ + 1, [] => ([], [])
  | n + 1, c :: l =>
    if c.isDigit then
      let p := splitDigits n l
      (c :: p.1, p.2)
    else ([], c :: l)

/-- Numeric value of a digit string. -/
def digitsVal (l : List Char) : Nat :=
  l.foldl (fun a c => a * 10 + (c.toNat - 48)) 0

/-- Gregorian leap-year rule, as used by `datetime`. -/
def isLeapYear (y : Nat) : Bool :=
  y % 4 == 0 && (y % 100 != 0 || y % 400 == 0)

/-- Days in a month, as validated by `datetime`. -/
def daysInMonth (y mo : Nat) : Nat :=
  if mo = 2 then (if isLeapYear y then 29 else 28)
  else if mo = 4 ∨ mo = 6 ∨ mo = 9 ∨ mo = 11 then 30
  else 31

/-- `datetime.strptime(s, "%Y-%m-%dT%H:%MZ")`, returning `none` on a
`ValueError`.  `%Y`/`%m`/`%d`/`%H`/`%M` match one-to-four (resp. one-to-two)
digits; the literals `-`, `T`, `:`, `Z` must appear exactly, the whole string
must be consumed, and the fields must form a valid calendar date and time.  A
successful parse is encoded as a single natural number that orders exactly as
the parsed `datetime` orders. -/
def strptimeFixed (s : String) : Option Nat :=
  let p0 := splitDigits 4 s.toList
  if p0.1.isEmpty then none else
  match p0.2 with
  | '-' :: r1 =>
    let p1 := splitDigits 2 r1
    if p1.1.isEmpty then none else
    match p1.2 with
    | '-' :: r2 =>
      let p2 := splitDigits 2 r2
      if p2.1.isEmpty then none else
      match p2.2 with
      | 'T' :: r3 =>
        let p3 := splitDigits 2 r3
        if p3.1.isEmpty then none else
        match p3.2 with
        | ':' :: r4 =>
          let p4 := splitDigits 2 r4
          if p4.1.isEmpty then none else
          match p4.2 with
          | ['Z'] =>
            let y := digitsVal p0.1
            let mo := digitsVal p1.1
            let d := digitsVal p2.1
            let h := digitsVal p3.1
            let mi := digitsVal p4.1
            if 1 ≤ mo ∧ mo ≤ 12 ∧ 1 ≤ d ∧ d ≤ daysInMonth y mo ∧ h ≤ 23 ∧ mi ≤ 59 then
              some ((((y * 13 + mo) * 32 + d) * 24 + h) * 60 + mi)
            else none
          | _ => none
        | _ => none
      | _ => none
    | _ => none
  | _ => none

/-! ### The functions of `espn_tools.py` -/

/-- The literal `TEAM_IDS` dictionary of `get_team_id`, in source order. -/
def TEAM_IDS : List (String × Nat) :=
  [("ARI", 22), ("ATL", 1), ("BAL", 33), ("BUF", 2), ("CAR", 29), ("CHI", 3),
   ("CIN", 4), ("CLE", 5), ("DAL", 6), ("DEN", 7), ("DET", 8), ("GB", 9),
   ("HOU", 34), ("IND", 11), ("JAX", 30), ("KC", 12), ("LV", 13), ("LAC", 24),
   ("LAR", 14), ("MIA", 15), ("MIN", 16), ("NE", 17), ("NO", 18), ("NYG", 19),
   ("NYJ", 20), ("PHI", 21), ("PIT", 23), ("SF", 25), ("SEA", 26), ("TB", 27),
   ("TEN", 10), ("WAS", 28)]

/-- `get_team_id`: `TEAM_IDS.get(team_abbreviation)`. -/
def get_team_id (team_abbreviation : String) : Option Nat :=
  TEAM_IDS.lookup team_abbreviation

/-- The per-category inner loop of `get_team_players`'s list comprehension:
`[item for category in position_categories for item in category.get('items', [])]`. -/
def collectItems : List JVal → Except PyErr (List JVal)
  | [] => .ok []
  | c :: cs =>
    match pyGetD c "items" (.arr []) with
    | .error e => .error e
    | .ok its =>
      match iterElems its with
      | .error e => .error e
      | .ok l =>
        match collectItems cs with
        | .error e => .error e
        | .ok rest => .ok (l ++ rest)

/-- `get_team_players`, applied to the decoded roster response body. -/
def get_team_players (body : JVal) : Except PyErr (List JVal) :=
  match pyGetD body "athletes" (.arr []) with
  | .error e => .error e
  | .ok cats =>
    match iterElems cats with
    | .error e => .error e
    | .ok catList => collectItems catList

/-- `get_player_id`: scan `team_players`, comparing
`player['displayName'].lower()` with `player_name.lower()`; return
`player['id']` on the first match, `None` (here `none`) when the loop falls
through. -/
def get_player_id (player_name : String) : List JVal → Except PyErr (Option JVal)
  | [] => .ok none
  | p :: ps =>
    match getKey p "displayName" with
    | .error e => .error e
    | .ok d =>
      match pyLower d with
      | .error e => .error e
      | .ok ds =>
        if ds == pyStrLower player_name then
          match getKey p "id" with
          | .error e => .error e
          | .ok i => .ok (some i)
        else get_player_id player_name ps

/-- `get_player_stats`: no `try` block, so a `RequestException` from
`requests.get` propagates; a status other than 200 logs and returns `None`. -/
def get_player_stats (o : HttpOutcome) : PyRet :=
  match o with
  | .netFail m => .raised (.reqExc m)
  | .resp s b => if s ≠ 200 then .val .null else .val b

/-- Body of `get_nfl_team_stats`'s `try` block. -/
def gntsTry (o : HttpOutcome) : Except PyErr JVal :=
  match raiseForStatus o with
  | .error e => .error e
  | .ok data =>
    match hasKeyPy data "team" with
    | .error e => .error e
    | .ok true => getKey data "team"
    | .ok false => .ok (errDict "Team stats not found")

/-- `get_nfl_team_stats`: the `try` body with
`except requests.exceptions.RequestException as e: return {"error": str(e)}`. -/
def get_nfl_team_stats (o : HttpOutcome) : PyRet :=
  match gntsTry o with
  | .ok v => .val v
  | .error (.reqExc m) => .val (errDict m)
  | .error e => .raised e

/-- One element of `recent_games`: `{'game_id': game['id'], 'date': game_date}`. -/
structure Entry where
  gameId : JVal
  date : Nat

/-- `game['status']['type']['name']`, evaluated left to right. -/
def statusNameOf (game : JVal) : Except PyErr JVal :=
  match getKey game "status" with
  | .error e => .error e
  | .ok st =>
    match getKey st "type" with
    | .error e => .error e
    | .ok ty => getKey ty "name"

/-- `v` must be a string for `datetime.strptime`, else `TypeError`. -/
def asStr : JVal → Except PyErr String
  | .str s => .ok s
  | _ => .error (.typeErr "strptime() argument must be str")

/-- One iteration of the `for event in schedule_data['events']` loop:
`game = event['competitions'][0]`; if `'status' in game and
game['status']['type']['name'] == 'STATUS_FINAL'`, parse `game['date']` and
produce the `{'game_id': game['id'], 'date': game_date}` entry, else skip. -/
def classifyEvent (e : JVal) : Except PyErr (Option Entry) :=
  match getKey e "competitions" with
  | .error er => .error er
  | .ok comps =>
    match getIndex comps 0 with
    | .error er => .error er
    | .ok game =>
      match hasKeyPy game "status" with
      | .error er => .error er
      | .ok false => .ok none
      | .ok true =>
        match statusNameOf game with
        | .error er => .error er
        | .ok nm =>
          if pyEqStr nm "STATUS_FINAL" then
            match getKey game "date" with
            | .error er => .error er
            | .ok dv =>
              match asStr dv with
              | .error er => .error er
              | .ok ds =>
                match strptimeFixed ds with
                | none => .error (.valErr ds)
                | some d =>
                  match getKey game "id" with
                  | .error er => .error er
                  | .ok gid => .ok (some ⟨gid, d⟩)
          else .ok none

/-- The whole `for event in schedule_data['events']` loop building
`recent_games`; an exception in any iteration aborts the loop. -/
def buildRecent : List JVal → Except PyErr (List Entry)
  | [] => .ok []
  | e :: es =>
    match classifyEvent e with
    | .error er => .error er
    | .ok r =>
      match buildRecent es with
      | .error er => .error er
      | .ok rest => .ok (match r with | some x => x :: rest | none => rest)

/-- Insert into a date-descending list, after every element with an equal or
later date (so that the overall sort is stable, like Python's
`sorted(..., reverse=True)`). -/
def insertDesc (x : Entry) : List Entry → List Entry
  | [] => [x]
  | y :: ys => if y.date < x.date then x :: y :: ys else y :: insertDesc x ys

/-- `sorted(recent_games, key=lambda x: x['date'], reverse=True)`: the stable
sort by date descending. -/
def sortDateDesc (l : List Entry) : List Entry :=
  l.foldl (fun acc x => insertDesc x acc) []

/-- Python slice `l[:n]` for an arbitrary integer `n`: the first `n` elements
when `n ≥ 0`, and all but the last `-n` elements when `n < 0` (empty when
`len(l) + n ≤ 0`). -/
def pySlice (n : Int) (l : List α) : List α :=
  if 0 ≤ n then l.take n.toNat else l.take ((l.length : Int) + n).toNat

/-- One iteration of the per-game loop: fetch the summary for the entry's game
id, `raise_for_status`, decode, and take `game_stats_data['boxscore']`. -/
def fetchBox (f : JVal → HttpOutcome) (e : Entry) : Except PyErr JVal :=
  match raiseForStatus (f e.gameId) with
  | .error er => .error er
  | .ok body => getKey body "boxscore"

/-- The `for game in recent_games[:num_games]` loop collecting
`game_stats_list`; an exception in any iteration aborts the loop. -/
def fetchLoop (f : JVal → HttpOutcome) : List Entry → Except PyErr (List JVal)
  | [] => .ok []
  | e :: es =>
    match fetchBox f e with
    | .error er => .error er
    | .ok b =>
      match fetchLoop f es with
      | .error er => .error er
      | .ok bs => .ok (b :: bs)

/-- Steps 1–2 of `get_recent_game_stats`: fetch and check the schedule, then
build `recent_games` (empty when `'events' not in schedule_data`). -/
def scheduleEntries (net : Network) : Except PyErr (List Entry) :=
  match raiseForStatus net.schedule with
  | .error e => .error e
  | .ok schedule_data =>
    match hasKeyPy schedule_data "events" with
    | .error e => .error e
    | .ok false => .ok []
    | .ok true =>
      match getKey schedule_data "events" with
      | .error e => .error e
      | .ok evs =>
        match iterElems evs with
        | .error e => .error e
        | .ok events => buildRecent events

/-- Body of `get_recent_game_stats`'s `try` block: build `recent_games`, sort
descending, slice to `num_games`, and run the per-game loop; the returned JSON
value is the list `game_stats_list`. -/
def innerGrgs (net : Network) (num_games : Int) : Except PyErr JVal :=
  match scheduleEntries net with
  | .error e => .error e
  | .ok rg =>
    match fetchLoop net.summary (pySlice num_games (sortDateDesc rg)) with
    | .error e => .error e
    | .ok boxes => .ok (.arr boxes)

/-- `get_recent_game_stats`: the `try` body with
`except requests.exceptions.RequestException as e: return {"error": str(e)}`;
any other exception propagates to the caller. -/
def get_recent_game_stats (net : Network) (num_games : Int) : PyRet :=
  match innerGrgs net num_games with
  | .ok v => .val v
  | .error (.reqExc m) => .val (errDict m)
  | .error e => .raised e

/-! ### Specification-side extractors (pure `Option` views of the JSON paths) -/

/-- Field of an object, `none` for any other shape. -/
def jGet? (v : JVal) (k : String) : Option JVal :=
  match v with | .obj fs => fs.lookup k | _ => none

/-- Element of an array, `none` for any other shape. -/
def jIdx? (v : JVal) (i : Nat) : Option JVal :=
  match v with | .arr xs => xs[i]? | _ => none

/-- String payload, `none` for any other shape. -/
def jStr? : JVal → Option String
  | .str s => some s
  | _ => none

/-- The event's `competitions[0].status.type.name` string, read along the exact
path the source reads it, as a pure partial view. -/
def eventStatusName (e : JVal) : Option String :=
  (jGet? e "competitions").bind fun comps =>
    (jIdx? comps 0).bind fun game =>
      (jGet? game "status").bind fun st =>
        (jGet? st "type").bind fun ty =>
          (jGet? ty "name").bind jStr?

/-! ### Concrete fixtures used by closed theorems and witnesses -/

/-- A schedule event whose single competition has the given id, date string and
status type name. -/
def mkEvent (gid date statusName : String) : JVal :=
  .obj [("competitions", .arr [.obj [
    ("id", .str gid), ("date", .str date),
    ("status", .obj [("type", .obj [("name", .str statusName)])])]])]

/-- Schedule with games on 2024-01-01, 2024-01-08, 2024-01-15 (all final) and
2024-01-22 (scheduled, not final). -/
def c1Sched : JVal :=
  .obj [("events", .arr [
    mkEvent "g1" "2024-01-01T18:00Z" "STATUS_FINAL",
    mkEvent "g2" "2024-01-08T18:00Z" "STATUS_FINAL",
    mkEvent "g3" "2024-01-15T18:00Z" "STATUS_FINAL",
    mkEvent "g4" "2024-01-22T18:00Z" "STATUS_SCHEDULED"])]

/-- Network serving `c1Sched` and a summary with boxscore `bᵢ` for game `gᵢ`. -/
def c1Net (b1 b2 b3 b4 : JVal) : Network where
  schedule := .resp 200 c1Sched
  summary := fun gid =>
    match gid with
    | .str "g1" => .resp 200 (.obj [("boxscore", b1)])
    | .str "g2" => .resp 200 (.obj [("boxscore", b2)])
    | .str "g3" => .resp 200 (.obj [("boxscore", b3)])
    | .str "g4" => .resp 200 (.obj [("boxscore", b4)])
    | _ => .netFail "unknown game"

/-- Roster with a single player entry, for the case-insensitivity witness. -/
def rosterW : List JVal :=
  [.obj [("displayName", .str "Patrick Mahomes"), ("id", .str "3139477")]]

/-! ### Helper lemmas -/

theorem pySlice_nil (n : Int) : pySlice n ([] : List α) = [] := by
  unfold pySlice; split <;> simp

theorem pySlice_zero (l : List α) : pySlice 0 l = [] := by
  simp [pySlice]

theorem pySlice_length_nonneg (n : Int) (hn : 0 ≤ n) (l : List α) :
    (pySlice n l).length = min n.toNat l.length := by
  simp [pySlice, hn]

theorem fetchLoop_ok_length (f : JVal → HttpOutcome) :
    ∀ es bs, fetchLoop f es = .ok bs → bs.length = es.length := by
  intro es
  induction es with
  | nil => intro bs h; simp [fetchLoop] at h; simp [← h]
  | cons e t ih =>
    intro bs h
    simp only [fetchLoop] at h
    cases hb : fetchBox f e with
    | error er => rw [hb] at h; exact absurd h (by simp)
    | ok b =>
      rw [hb] at h
      cases hr : fetchLoop f t with
      | error er => rw [hr] at h; exact absurd h (by simp)
      | ok rest =>
        rw [hr] at h
        cases h
        simp [ih rest hr]

theorem length_insertDesc (x : Entry) (l : List Entry) :
    (insertDesc x l).length = l.length + 1 := by
  induction l with
  | nil => rfl
  | cons y ys ih =>
    simp only [insertDesc]
    split <;> simp [ih]

theorem length_sortFold :
    ∀ (l acc : List Entry),
      (l.foldl (fun acc x => insertDesc x acc) acc).length = l.length + acc.length := by
  intro l
  induction l with
  | nil => intro acc; simp
  | cons x t ih =>
    intro acc
    simp only [List.foldl_cons, ih, length_insertDesc, List.length_cons]
    omega

theorem length_sortDateDesc (l : List Entry) :
    (sortDateDesc l).length = l.length := by
  simp [sortDateDesc, length_sortFold]

theorem wrap_reqExc (net : Network) (n : Int) (m : String)
    (h : innerGrgs net n = .error (.reqExc m)) :
    get_recent_game_stats net n = .val (errDict m) := by
  simp [get_recent_game_stats, h]

theorem lookup_none_of_keys (l : List (String × Nat)) (s : String)
    (h : s ∉ l.map Prod.fst) : l.lookup s = none := by
  induction l with
  | nil => rfl
  | cons p t ih =>
    obtain ⟨k, v⟩ := p
    simp only [List.map_cons, List.mem_cons] at h
    push_neg at h
    have hne : (s == k) = false := beq_eq_false_iff_ne.mpr h.1
    simp [List.lookup, hne, ih h.2]

/-! ### Claim theorems -/

/-- Claim C1: on a schedule with final games on 2024-01-01, 2024-01-08 and
2024-01-15 and a non-final game on 2024-01-22, `get_recent_game_stats(_, 2)`
returns the boxscore of the 2024-01-15 game first, then the 2024-01-08 game,
and the non-final 2024-01-22 game is excluded (were it selected it would rank
first, and its boxscore `b4` is available on the network). -/
theorem claim_c1 (b1 b2 b3 b4 : JVal) :
    get_recent_game_stats (c1Net b1 b2 b3 b4) 2 = .val (.arr [b3, b2]) := rfl

/-- Claim C5, counterexample: a schedule event lacking the `competitions` field
makes `get_recent_game_stats` raise an uncaught `KeyError` instead of treating
the field as absent/empty. -/
theorem claim_c5_cex :
    get_recent_game_stats
      ⟨.resp 200 (.obj [("events", .arr [.obj []])]), fun _ => .resp 200 .null⟩ 1
      = .raised (.keyErr "competitions") := rfl

/-- Claim C5, amended: only the accesses written with guarded lookups tolerate
a missing field — `events` (checked with `in`, yielding an empty result),
`athletes`/`items` (`.get` with `[]` default), `team` (checked with `in`,
yielding the structured error dict), and `status` (checked with `in`, skipping
the event,見 C2) — while plain subscripts such as `competitions` and
`displayName` raise an uncaught `KeyError` when the field is missing. -/
theorem claim_c5
    (f : JVal → HttpOutcome) (n : Int) (fsT fsC fsD : List (String × JVal))
    (name : String) :
    get_recent_game_stats ⟨.resp 200 (.obj []), f⟩ n = .val (.arr [])
  ∧ get_team_players (.obj []) = .ok []
  ∧ (fsT.lookup "team" = none →
      get_nfl_team_stats (.resp 200 (.obj fsT)) = .val (errDict "Team stats not found"))
  ∧ (fsC.lookup "competitions" = none →
      classifyEvent (.obj fsC) = .error (.keyErr "competitions"))
  ∧ (fsD.lookup "displayName" = none →
      get_player_id name [.obj fsD] = .error (.keyErr "displayName")) := by
  have h200 : ¬ (400 ≤ 200 ∧ 200 < 600) := by omega
  refine ⟨?_, rfl, ?_, ?_, ?_⟩
  · simp [get_recent_game_stats, innerGrgs, scheduleEntries, raiseForStatus, h200,
      hasKeyPy, sortDateDesc, pySlice_nil, fetchLoop]
  · intro h
    simp [get_nfl_team_stats, gntsTry, raiseForStatus, h200, hasKeyPy, h]
  · intro h
    simp [classifyEvent, getKey, h]
  · intro h
    simp [get_player_id, getKey, h]

/-- Claim C5, witness: the amended theorem applied at concrete inputs. -/
theorem claim_c5_w :
    get_recent_game_stats ⟨.resp 200 (.obj []), fun _ => .netFail "x"⟩ 3 = .val (.arr [])
  ∧ get_team_players (.obj []) = .ok []
  ∧ get_nfl_team_stats (.resp 200 (.obj [("foo", .null)]))
      = .val (errDict "Team stats not found")
  ∧ classifyEvent (.obj [("id", .null)]) = .error (.keyErr "competitions")
  ∧ get_player_id "A" [.obj []] = .error (.keyErr "displayName") := by
  obtain ⟨h1, h2, h3, h4, h5⟩ :=
    claim_c5 (fun _ => .netFail "x") 3 [("foo", .null)] [("id", .null)] [] "A"
  exact ⟨h1, h2, h3 rfl, h4 rfl, h5 rfl⟩

/-- Claim C8: `get_team_id` is the fixed 32-entry lookup table — each of the 32
abbreviations maps to its documented ID, the table has exactly 32 entries, and
any other string maps to `none` rather than raising. -/
theorem claim_c8 :
    (get_team_id "ARI" = some 22 ∧ get_team_id "ATL" = some 1 ∧
     get_team_id "BAL" = some 33 ∧ get_team_id "BUF" = some 2 ∧
     get_team_id "CAR" = some 29 ∧ get_team_id "CHI" = some 3 ∧
     get_team_id "CIN" = some 4 ∧ get_team_id "CLE" = some 5 ∧
     get_team_id "DAL" = some 6 ∧ get_team_id "DEN" = some 7 ∧
     get_team_id "DET" = some 8 ∧ get_team_id "GB" = some 9 ∧
     get_team_id "HOU" = some 34 ∧ get_team_id "IND" = some 11 ∧
     get_team_id "JAX" = some 30 ∧ get_team_id "KC" = some 12 ∧
     get_team_id "LV" = some 13 ∧ get_team_id "LAC" = some 24 ∧
     get_team_id "LAR" = some 14 ∧ get_team_id "MIA" = some 15 ∧
     get_team_id "MIN" = some 16 ∧ get_team_id "NE" = some 17 ∧
     get_team_id "NO" = some 18 ∧ get_team_id "NYG" = some 19 ∧
     get_team_id "NYJ" = some 20 ∧ get_team_id "PHI" = some 21 ∧
     get_team_id "PIT" = some 23 ∧ get_team_id "SF" = some 25 ∧
     get_team_id "SEA" = some 26 ∧ get_team_id "TB" = some 27 ∧
     get_team_id "TEN" = some 10 ∧ get_team_id "WAS" = some 28)
  ∧ TEAM_IDS.length = 32
  ∧ ∀ s : String, s ∉ TEAM_IDS.map Prod.fst → get_team_id s = none := by
  refine ⟨by decide, by decide, ?_⟩
  intro s hs
  exact lookup_none_of_keys TEAM_IDS s hs

/-- Claim C8, witness: an unrecognized abbreviation yields `none`. -/
theorem claim_c8_w : get_team_id "XYZ" = none :=
  claim_c8.2.2 "XYZ" (by decide)

/-- Claim C9: `get_player_id` is case-insensitive in the player name — two
names equal up to letter case produce the same result on every roster. -/
theorem claim_c9 (players : List JVal) (n1 n2 : String)
    (h : pyStrLower n1 = pyStrLower n2) :
    get_player_id n1 players = get_player_id n2 players := by
  induction players with
  | nil => rfl
  | cons p ps ih =>
    simp only [get_player_id, h]
    cases hd : getKey p "displayName" with
    | error e => simp [hd]
    | ok d =>
      cases hl : pyLower d with
      | error e => simp [hd, hl]
      | ok ds =>
        by_cases hc : (ds == pyStrLower n2) = true
        · simp [hd, hl, hc]
        · simp [hd, hl, hc, ih]

/-- Claim C9, witness: "Patrick Mahomes" and "patrick mahomes" resolve to
the same identifier on a concrete roster. -/
theorem claim_c9_w :
    get_player_id "Patrick Mahomes" rosterW = get_player_id "patrick mahomes" rosterW :=
  claim_c9 rosterW "Patrick Mahomes" "patrick mahomes" (by decide)


/-! ### Reduction lemmas for the pure JSON views -/

theorem jGet?_obj (fs : List (String × JVal)) (k : String) :
    jGet? (.obj fs) k = fs.lookup k := rfl

theorem jGet?_str (s : String) (k : String) : jGet? (.str s) k = none := rfl

theorem jGet?_num (n : Int) (k : String) : jGet? (.num n) k = none := rfl

theorem jGet?_bool (b : Bool) (k : String) : jGet? (.bool b) k = none := rfl

theorem jGet?_null (k : String) : jGet? .null k = none := rfl

theorem jGet?_arr (xs : List JVal) (k : String) : jGet? (.arr xs) k = none := rfl

theorem jIdx?_arr (xs : List JVal) (i : Nat) : jIdx? (.arr xs) i = xs[i]? := rfl

theorem jIdx?_str (t : String) (i : Nat) : jIdx? (.str t) i = none := rfl

theorem jStr?_str (s : String) : jStr? (.str s) = some s := rfl

theorem getKey_ok_jGet {v : JVal} {k : String} {u : JVal}
    (h : getKey v k = .ok u) : jGet? v k = some u := by
  cases v with
  | obj fs =>
    cases hl : fs.lookup k with
    | none => simp [getKey, hl] at h
    | some w => simp [getKey, hl] at h; rw [jGet?_obj, hl, h]
  | str s => exact absurd h (by simp [getKey])
  | num n => exact absurd h (by simp [getKey])
  | bool b => exact absurd h (by simp [getKey])
  | null => exact absurd h (by simp [getKey])
  | arr xs => exact absurd h (by simp [getKey])

theorem getIndex_arr_ok {xs : List JVal} {i : Nat} {g : JVal}
    (h : getIndex (.arr xs) i = .ok g) : xs[i]? = some g := by
  cases hl : xs[i]? with
  | none => simp [getIndex, hl] at h
  | some w => simp [getIndex, hl] at h; subst h; rfl

theorem statusNameOf_ok {g nm : JVal} (h : statusNameOf g = .ok nm) :
    ∃ fs st ty, g = .obj fs ∧ fs.lookup "status" = some st ∧
      jGet? st "type" = some ty ∧ jGet? ty "name" = some nm := by
  cases hs : getKey g "status" with
  | error er => simp [statusNameOf, hs] at h
  | ok st =>
    cases ht : getKey st "type" with
    | error er => simp [statusNameOf, hs, ht] at h
    | ok ty =>
      have hne : getKey ty "name" = .ok nm := by
        simpa [statusNameOf, hs, ht] using h
      have h1 := getKey_ok_jGet hs
      have h2 := getKey_ok_jGet ht
      have h3 := getKey_ok_jGet hne
      cases g with
      | obj fs =>
        refine ⟨fs, st, ty, rfl, ?_, h2, h3⟩
        rwa [jGet?_obj] at h1
      | str s => rw [jGet?_str] at h1; exact absurd h1 (by simp)
      | num n => rw [jGet?_num] at h1; exact absurd h1 (by simp)
      | bool b => rw [jGet?_bool] at h1; exact absurd h1 (by simp)
      | null => rw [jGet?_null] at h1; exact absurd h1 (by simp)
      | arr xs => rw [jGet?_arr] at h1; exact absurd h1 (by simp)

/-- Claim C2: the retention test of `get_recent_game_stats` keeps an event iff
its `competitions[0].status.type.name` is the literal `STATUS_FINAL`: a
retained event always has that status name, a skipped event never does, and an
event whose game object merely lacks the `status` field is skipped, not an
error. -/
theorem claim_c2 (e : JVal) :
    (∀ r, classifyEvent e = .ok (some r) → eventStatusName e = some "STATUS_FINAL")
  ∧ (classifyEvent e = .ok none → ¬ eventStatusName e = some "STATUS_FINAL")
  ∧ (∀ comps fs, getKey e "competitions" = .ok comps →
      getIndex comps 0 = .ok (.obj fs) → fs.lookup "status" = none →
      classifyEvent e = .ok none) := by
  refine ⟨?_, ?_, ?_⟩
  · intro r h
    cases hc : getKey e "competitions" with
    | error er => simp [classifyEvent, hc] at h
    | ok comps =>
      cases hi : getIndex comps 0 with
      | error er => simp [classifyEvent, hc, hi] at h
      | ok game =>
        cases hk : hasKeyPy game "status" with
        | error er => simp [classifyEvent, hc, hi, hk] at h
        | ok b =>
          cases b with
          | false => simp [classifyEvent, hc, hi, hk] at h
          | true =>
            cases hn : statusNameOf game with
            | error er => simp [classifyEvent, hc, hi, hk, hn] at h
            | ok nm =>
              by_cases hf : pyEqStr nm "STATUS_FINAL" = true
              case neg => simp [classifyEvent, hc, hi, hk, hn, hf] at h
              case pos =>
                have hnm : nm = .str "STATUS_FINAL" := by
                  cases nm <;> simp [pyEqStr] at hf
                  rw [hf]
                obtain ⟨fs, st, ty, hgame, hst, hty, hnme⟩ := statusNameOf_ok hn
                subst hgame
                subst hnm
                have hce := getKey_ok_jGet hc
                cases comps with
                | arr xs =>
                  have hx := getIndex_arr_ok hi
                  simp [eventStatusName, hce, jIdx?_arr, hx, jGet?_obj, hst, hty,
                    hnme, jStr?_str]
                | str t =>
                  simp only [getIndex] at hi
                  split at hi <;> simp_all
                | num n => exact absurd hi (by simp [getIndex])
                | bool b2 => exact absurd hi (by simp [getIndex])
                | null => exact absurd hi (by simp [getIndex])
                | obj fs2 => exact absurd hi (by simp [getIndex])
  · intro h hfinal
    cases hc : getKey e "competitions" with
    | error er => simp [classifyEvent, hc] at h
    | ok comps =>
      have hce := getKey_ok_jGet hc
      cases hi : getIndex comps 0 with
      | error er => simp [classifyEvent, hc, hi] at h
      | ok game =>
        cases comps with
        | str t => simp [eventStatusName, hce, jIdx?_str] at hfinal
        | num n => exact absurd hi (by simp [getIndex])
        | bool b2 => exact absurd hi (by simp [getIndex])
        | null => exact absurd hi (by simp [getIndex])
        | obj fs2 => exact absurd hi (by simp [getIndex])
        | arr xs =>
          have hx := getIndex_arr_ok hi
          cases hk : hasKeyPy game "status" with
          | error er => simp [classifyEvent, hc, hi, hk] at h
          | ok b =>
            cases b with
            | false =>
              cases game with
              | obj fs =>
                have hk' : (fs.lookup "status").isSome = false := by
                  simpa [hasKeyPy] using hk
                cases hl : fs.lookup "status" with
                | some st => rw [hl] at hk'; simp at hk'
                | none =>
                  simp [eventStatusName, hce, jIdx?_arr, hx, jGet?_obj, hl]
                    at hfinal
              | str s =>
                simp [eventStatusName, hce, jIdx?_arr, hx, jGet?_str] at hfinal
              | num n =>
                simp [eventStatusName, hce, jIdx?_arr, hx, jGet?_num] at hfinal
              | bool b3 =>
                simp [eventStatusName, hce, jIdx?_arr, hx, jGet?_bool] at hfinal
              | null =>
                simp [eventStatusName, hce, jIdx?_arr, hx, jGet?_null] at hfinal
              | arr ys =>
                simp [eventStatusName, hce, jIdx?_arr, hx, jGet?_arr] at hfinal
            | true =>
              cases hn : statusNameOf game with
              | error er => simp [classifyEvent, hc, hi, hk, hn] at h
              | ok nm =>
                by_cases hf : pyEqStr nm "STATUS_FINAL" = true
                case pos =>
                  cases hdt : getKey game "date" with
                  | error er =>
                    simp [classifyEvent, hc, hi, hk, hn, hf, hdt] at h
                  | ok dv =>
                    cases hds : asStr dv with
                    | error er =>
                      simp [classifyEvent, hc, hi, hk, hn, hf, hdt, hds] at h
                    | ok ds =>
                      cases hsp : strptimeFixed ds with
                      | none =>
                        simp [classifyEvent, hc, hi, hk, hn, hf, hdt, hds, hsp]
                          at h
                      | some d =>
                        cases hid : getKey game "id" with
                        | error er =>
                          simp [classifyEvent, hc, hi, hk, hn, hf, hdt, hds,
                            hsp, hid] at h
                        | ok gid =>
                          simp [classifyEvent, hc, hi, hk, hn, hf, hdt, hds,
                            hsp, hid] at h
                case neg =>
                  obtain ⟨fs, st, ty, hgame, hst, hty, hnme⟩ := statusNameOf_ok hn
                  subst hgame
                  have hview : eventStatusName e = jStr? nm := by
                    simp [eventStatusName, hce, jIdx?_arr, hx, jGet?_obj, hst,
                      hty, hnme]
                  rw [hview] at hfinal
                  cases nm with
                  | str t2 =>
                    rw [jStr?_str] at hfinal
                    injection hfinal with hfinal
                    exact hf (by simp [pyEqStr, hfinal])
                  | num n2 => simp [jStr?] at hfinal
                  | bool b3 => simp [jStr?] at hfinal
                  | null => simp [jStr?] at hfinal
                  | arr ys => simp [jStr?] at hfinal
                  | obj fs3 => simp [jStr?] at hfinal
  · intro comps fs hc hi hl
    simp [classifyEvent, hc, hi, hasKeyPy, hl]

/-- Claim C2, witness: a final event is seen as final, a scheduled event is
skipped, and an event whose game object lacks `status` is skipped without
error. -/
theorem claim_c2_w :
    eventStatusName (mkEvent "g1" "2024-01-01T18:00Z" "STATUS_FINAL")
      = some "STATUS_FINAL"
  ∧ ¬ eventStatusName (mkEvent "g4" "2024-01-22T18:00Z" "STATUS_SCHEDULED")
      = some "STATUS_FINAL"
  ∧ classifyEvent (.obj [("competitions", .arr [.obj [("id", .null)]])])
      = .ok none :=
  ⟨(claim_c2 _).1 ⟨.str "g1", 1212505560⟩ rfl,
   (claim_c2 _).2.1 rfl,
   (claim_c2 _).2.2 (.arr [.obj [("id", .null)]]) [("id", .null)] rfl rfl rfl⟩

/-- Event with status `STATUS_FINAL` whose date string lacks the time part, so
`strptime` fails on it. -/
def badDateEvent : JVal := mkEvent "g9" "2024-01-15" "STATUS_FINAL"

/-- Network whose schedule contains only `badDateEvent`. -/
def c6Net : Network :=
  ⟨.resp 200 (.obj [("events", .arr [badDateEvent])]), fun _ => .netFail "x"⟩

theorem buildRecent_abort (er : PyErr) :
    ∀ pre x post, (∀ ev ∈ pre, ∃ r, classifyEvent ev = .ok r) →
      classifyEvent x = .error er →
      buildRecent (pre ++ x :: post) = .error er := by
  intro pre
  induction pre with
  | nil => intro x post _ hx; simp [buildRecent, hx]
  | cons a t ih =>
    intro x post hpre hx
    obtain ⟨r, hr⟩ := hpre a (List.mem_cons_self a t)
    have ht := ih x post (fun ev hev => hpre ev (List.mem_cons_of_mem a hev)) hx
    simp [buildRecent, hr, ht]

/-- Claim C6: a retained (`STATUS_FINAL`) event's date is parsed with the
single fixed `strptime` format; when the date string does not match the
format, the `ValueError` escapes `classifyEvent`, aborts the whole event loop
no matter how many earlier events processed cleanly, and leaves
`get_recent_game_stats` as an uncaught exception — it is not converted into
the structured `{'error': ...}` return value. -/
theorem claim_c6 (e comps game : JVal) (ds : String)
    (hc : getKey e "competitions" = .ok comps)
    (hi : getIndex comps 0 = .ok game)
    (hk : hasKeyPy game "status" = .ok true)
    (hn : statusNameOf game = .ok (.str "STATUS_FINAL"))
    (hd : getKey game "date" = .ok (.str ds))
    (hp : strptimeFixed ds = none) :
    classifyEvent e = .error (.valErr ds)
  ∧ (∀ pre post, (∀ ev ∈ pre, ∃ r, classifyEvent ev = .ok r) →
      buildRecent (pre ++ e :: post) = .error (.valErr ds))
  ∧ ∀ net n s, innerGrgs net n = .error (.valErr s) →
      get_recent_game_stats net n = .raised (.valErr s) := by
  have h1 : classifyEvent e = .error (.valErr ds) := by
    simp [classifyEvent, hc, hi, hk, hn, pyEqStr, hd, asStr, hp]
  refine ⟨h1, ?_, ?_⟩
  · intro pre post hpre
    exact buildRecent_abort (.valErr ds) pre e post hpre h1
  · intro net n s h
    simp [get_recent_game_stats, h]

/-- Claim C6, witness: the malformed date "2024-01-15" (no time component)
raises a `ValueError` that aborts the loop after a clean first event and
surfaces as an uncaught exception for the whole call. -/
theorem claim_c6_w :
    classifyEvent badDateEvent = .error (.valErr "2024-01-15")
  ∧ buildRecent [mkEvent "g1" "2024-01-01T18:00Z" "STATUS_FINAL", badDateEvent]
      = .error (.valErr "2024-01-15")
  ∧ get_recent_game_stats c6Net 5 = .raised (.valErr "2024-01-15") := by
  have h := claim_c6 badDateEvent _ _ "2024-01-15" rfl rfl rfl rfl rfl rfl
  refine ⟨h.1, ?_, h.2.2 c6Net 5 "2024-01-15" rfl⟩
  exact h.2.1 [mkEvent "g1" "2024-01-01T18:00Z" "STATUS_FINAL"] []
    (by
      intro ev hev
      simp only [List.mem_singleton] at hev
      subst hev
      exact ⟨some ⟨.str "g1", 1212505560⟩, rfl⟩)

/-- Claim C3: for `num_games ≥ 0`, a successful call returns exactly
`min num_games (number of completed games)` boxscores; with `num_games = 0`
the result is empty and the per-game endpoint is never consulted (the result
does not depend on the summary side of the network). -/
theorem claim_c3 (net : Network) (n : Int) (hn : 0 ≤ n) :
    (∀ l rg, get_recent_game_stats net n = .val (.arr l) →
      scheduleEntries net = .ok rg → l.length = min n.toNat rg.length)
  ∧ (∀ f g, get_recent_game_stats ⟨net.schedule, f⟩ 0
      = get_recent_game_stats ⟨net.schedule, g⟩ 0)
  ∧ (∀ l, get_recent_game_stats net 0 = .val (.arr l) → l = []) := by
  refine ⟨?_, ?_, ?_⟩
  · intro l rg h hrg
    cases hig : innerGrgs net n with
    | error e => cases e <;> simp [get_recent_game_stats, hig, errDict] at h
    | ok v =>
      simp only [get_recent_game_stats, hig] at h
      injection h with h
      subst h
      simp only [innerGrgs, hrg] at hig
      cases hfl : fetchLoop net.summary (pySlice n (sortDateDesc rg)) with
      | error e2 => simp only [hfl] at hig; exact absurd hig (by simp)
      | ok boxes =>
        simp only [hfl, Except.ok.injEq, JVal.arr.injEq] at hig
        subst hig
        have hlen := fetchLoop_ok_length net.summary _ _ hfl
        rw [hlen, pySlice_length_nonneg n hn, length_sortDateDesc]
  · intro f g
    have hse : scheduleEntries ⟨net.schedule, f⟩ = scheduleEntries ⟨net.schedule, g⟩ :=
      rfl
    simp only [get_recent_game_stats, innerGrgs, hse]
    cases hs : scheduleEntries ⟨net.schedule, g⟩ with
    | error e => rfl
    | ok rg => simp [pySlice_zero, fetchLoop]
  · intro l h
    cases hig : innerGrgs net 0 with
    | error e => cases e <;> simp [get_recent_game_stats, hig, errDict] at h
    | ok v =>
      simp only [get_recent_game_stats, hig] at h
      injection h with h
      subst h
      cases hs : scheduleEntries net with
      | error e => simp only [innerGrgs, hs] at hig; exact absurd hig (by simp)
      | ok rg =>
        simp only [innerGrgs, hs, pySlice_zero, fetchLoop, Except.ok.injEq,
          JVal.arr.injEq] at hig
        exact hig.symm

/-- Claim C3, witness: on the concrete four-game schedule, requesting 2 of the
3 completed games yields 2 = min 2 3 boxscores, and with count 0 the result is
independent of the per-game network. -/
theorem claim_c3_w :
    ([JVal.null, JVal.null] : List JVal).length = min (Int.toNat 2)
      ([⟨JVal.str "g1", 1212505560⟩, ⟨JVal.str "g2", 1212515640⟩,
        ⟨JVal.str "g3", 1212525720⟩] : List Entry).length
  ∧ get_recent_game_stats
      ⟨(c1Net .null .null .null .null).schedule, fun _ => .netFail "a"⟩ 0
      = get_recent_game_stats
        ⟨(c1Net .null .null .null .null).schedule, fun _ => .netFail "b"⟩ 0 :=
  ⟨(claim_c3 (c1Net .null .null .null .null) 2 (by decide)).1
      [.null, .null]
      [⟨.str "g1", 1212505560⟩, ⟨.str "g2", 1212515640⟩, ⟨.str "g3", 1212525720⟩]
      rfl rfl,
   (claim_c3 (c1Net .null .null .null .null) 2 (by decide)).2.1
      (fun _ => .netFail "a") (fun _ => .netFail "b")⟩

theorem fetchLoop_abort (f : JVal → HttpOutcome) (er : PyErr) :
    ∀ pre x post, (∀ y ∈ pre, ∃ b, fetchBox f y = .ok b) →
      fetchBox f x = .error er →
      fetchLoop f (pre ++ x :: post) = .error er := by
  intro pre
  induction pre with
  | nil => intro x post _ hx; simp [fetchLoop, hx]
  | cons a t ih =>
    intro x post hpre hx
    obtain ⟨b, hb⟩ := hpre a (List.mem_cons_self a t)
    have ht := ih x post (fun y hy => hpre y (List.mem_cons_of_mem a hy)) hx
    simp [fetchLoop, hb, ht]

/-- Claim C4: a `RequestException` (network failure or non-success status) on
any per-game fetch makes the whole loop fail with that single error — the
boxscores already fetched for the earlier games are discarded — and the
function then returns the single aggregate `{'error': ...}` value, never a
partial list. -/
theorem claim_c4 (f : JVal → HttpOutcome) (pre post : List Entry) (x : Entry)
    (m : String)
    (hpre : ∀ y ∈ pre, ∃ b, fetchBox f y = .ok b)
    (hx : fetchBox f x = .error (.reqExc m)) :
    fetchLoop f (pre ++ x :: post) = .error (.reqExc m)
  ∧ ∀ net n, innerGrgs net n = .error (.reqExc m) →
      get_recent_game_stats net n = .val (errDict m) :=
  ⟨fetchLoop_abort f (.reqExc m) pre x post hpre hx,
   fun net n h => wrap_reqExc net n m h⟩

/-- Per-game network for the C4 witness: game "a" succeeds, all others fail. -/
def c4f : JVal → HttpOutcome := fun gid =>
  match gid with
  | .str "a" => .resp 200 (.obj [("boxscore", .null)])
  | _ => .netFail "boom"

/-- Claim C4, witness: after one successful fetch the failing second fetch
aborts the whole loop with its error. -/
theorem claim_c4_w :
    fetchLoop c4f [⟨.str "a", 5⟩, ⟨.str "b", 4⟩] = .error (.reqExc "boom") :=
  (claim_c4 c4f [⟨.str "a", 5⟩] [] ⟨.str "b", 4⟩ "boom"
    (by
      intro y hy
      simp only [List.mem_singleton] at hy
      subst hy
      exact ⟨.null, rfl⟩)
    rfl).1

/-- Claim C7: a non-success HTTP status (400–599) from the team-statistics
endpoint, from the schedule fetch, or from a per-game fetch produces the
documented structured `{'error': ...}` return value rather than an uncaught
exception. -/
theorem claim_c7 (s : Nat) (hs : 400 ≤ s) (hs6 : s < 600) :
    (∀ b, get_nfl_team_stats (.resp s b) = .val (errDict (statusErrMsg s)))
  ∧ (∀ b f n, get_recent_game_stats ⟨.resp s b, f⟩ n
      = .val (errDict (statusErrMsg s)))
  ∧ (∀ f e b2, f e.gameId = .resp s b2 →
      fetchBox f e = .error (.reqExc (statusErrMsg s)))
  ∧ (∀ net n m, innerGrgs net n = .error (.reqExc m) →
      get_recent_game_stats net n = .val (errDict m)) := by
  have hrs : ∀ b : JVal,
      raiseForStatus (.resp s b) = .error (.reqExc (statusErrMsg s)) := by
    intro b; simp [raiseForStatus, hs, hs6]
  refine ⟨?_, ?_, ?_, ?_⟩
  · intro b; simp [get_nfl_team_stats, gntsTry, hrs b]
  · intro b f n
    have h1 : scheduleEntries ⟨.resp s b, f⟩ = .error (.reqExc (statusErrMsg s)) := by
      simp [scheduleEntries, hrs b]
    simp [get_recent_game_stats, innerGrgs, h1]
  · intro f e b2 hf
    simp [fetchBox, hf, hrs b2]
  · intro net n m h
    exact wrap_reqExc net n m h

/-- Claim C7, witness: a 404 on the team-statistics endpoint, on the schedule
fetch, and on a per-game fetch each produce the structured failure. -/
theorem claim_c7_w :
    get_nfl_team_stats (.resp 404 .null) = .val (errDict (statusErrMsg 404))
  ∧ get_recent_game_stats ⟨.resp 404 .null, fun _ => .netFail "x"⟩ 3
      = .val (errDict (statusErrMsg 404))
  ∧ fetchBox (fun _ => .resp 404 .null) ⟨.str "g", 0⟩
      = .error (.reqExc (statusErrMsg 404)) := by
  have h := claim_c7 404 (by decide) (by decide)
  exact ⟨h.1 .null, h.2.1 .null (fun _ => .netFail "x") 3,
    h.2.2.1 (fun _ => .resp 404 .null) ⟨.str "g", 0⟩ .null rfl⟩

theorem mem_insertDesc (x z : Entry) (l : List Entry) :
    z ∈ insertDesc x l ↔ z = x ∨ z ∈ l := by
  induction l with
  | nil => simp [insertDesc]
  | cons y ys ih =>
    simp only [insertDesc]
    split
    · simp [List.mem_cons]
    · simp only [List.mem_cons, ih]
      tauto

theorem pairwise_insertDesc (x : Entry) (l : List Entry)
    (h : l.Pairwise (fun a b => b.date ≤ a.date)) :
    (insertDesc x l).Pairwise (fun a b => b.date ≤ a.date) := by
  induction l with
  | nil => simp [insertDesc]
  | cons y ys ih =>
    rw [List.pairwise_cons] at h
    obtain ⟨hy, hys⟩ := h
    simp only [insertDesc]
    split
    case isTrue hlt =>
      rw [List.pairwise_cons]
      constructor
      · intro z hz
        rcases List.mem_cons.mp hz with rfl | hz2
        · exact le_of_lt hlt
        · exact le_trans (hy z hz2) (le_of_lt hlt)
      · exact List.pairwise_cons.mpr ⟨hy, hys⟩
    case isFalse hge =>
      rw [List.pairwise_cons]
      constructor
      · intro z hz
        rcases (mem_insertDesc x z ys).mp hz with rfl | hz2
        · exact le_of_not_lt hge
        · exact hy z hz2
      · exact ih hys

theorem pairwise_sortFold :
    ∀ (l acc : List Entry),
      acc.Pairwise (fun a b => b.date ≤ a.date) →
      (l.foldl (fun acc x => insertDesc x acc) acc).Pairwise
        (fun a b => b.date ≤ a.date) := by
  intro l
  induction l with
  | nil => intro acc h; simpa using h
  | cons x t ih =>
    intro acc h
    simp only [List.foldl_cons]
    exact ih _ (pairwise_insertDesc x acc h)

theorem pairwise_sortDateDesc (l : List Entry) :
    (sortDateDesc l).Pairwise (fun a b => b.date ≤ a.date) :=
  pairwise_sortFold l [] List.Pairwise.nil

/-- Claim C10: for negative `num_games` the slice follows Python's
negative-index semantics: when the schedule holds more than `|num_games|`
completed games the selection keeps all but the last (oldest, since the list
is date-descending) `|num_games|` of them, is nonempty, and a fully successful
call returns that nonempty boxscore list rather than an empty result or an
error. -/
theorem claim_c10 (net : Network) (n : Int) (hn : n < 0) (rg : List Entry)
    (hrg : scheduleEntries net = .ok rg)
    (hlen : (-n).toNat < (sortDateDesc rg).length) :
    pySlice n (sortDateDesc rg)
      = (sortDateDesc rg).take ((sortDateDesc rg).length - (-n).toNat)
  ∧ pySlice n (sortDateDesc rg) ≠ []
  ∧ (∀ x ∈ pySlice n (sortDateDesc rg),
      ∀ y ∈ (sortDateDesc rg).drop ((sortDateDesc rg).length - (-n).toNat),
        y.date ≤ x.date)
  ∧ ∀ bs, fetchLoop net.summary (pySlice n (sortDateDesc rg)) = .ok bs →
      get_recent_game_stats net n = .val (.arr bs) ∧ bs ≠ [] := by
  have hslice : pySlice n (sortDateDesc rg)
      = (sortDateDesc rg).take ((sortDateDesc rg).length - (-n).toNat) := by
    unfold pySlice
    rw [if_neg (by omega : ¬ 0 ≤ n)]
    congr 1
    omega
  have hlen2 : (pySlice n (sortDateDesc rg)).length
      = (sortDateDesc rg).length - (-n).toNat := by
    rw [hslice, List.length_take]
    omega
  have hne : pySlice n (sortDateDesc rg) ≠ [] := by
    intro hcon
    have hz := congrArg List.length hcon
    rw [hlen2] at hz
    simp at hz
    omega
  refine ⟨hslice, hne, ?_, ?_⟩
  · intro x hx y hy
    have hp := pairwise_sortDateDesc rg
    rw [← List.take_append_drop ((sortDateDesc rg).length - (-n).toNat)
      (sortDateDesc rg), List.pairwise_append] at hp
    exact hp.2.2 x (by rwa [hslice] at hx) y hy
  · intro bs hbs
    constructor
    · have hig : innerGrgs net n = .ok (.arr bs) := by
        simp only [innerGrgs, hrg, hbs]
      simp [get_recent_game_stats, hig]
    · intro hcon
      subst hcon
      have hz := fetchLoop_ok_length net.summary _ _ hbs
      rw [hlen2] at hz
      simp at hz
      omega

/-- Claim C10, witness: with the three completed games of the concrete
schedule and `num_games = -1`, the call returns the two newest boxscores
(dropping only the oldest game). -/
theorem claim_c10_w :
    get_recent_game_stats (c1Net .null .null .null .null) (-1)
      = .val (.arr [.null, .null])
  ∧ ([JVal.null, JVal.null] : List JVal) ≠ [] := by
  have h := claim_c10 (c1Net .null .null .null .null) (-1) (by decide)
    [⟨.str "g1", 1212505560⟩, ⟨.str "g2", 1212515640⟩, ⟨.str "g3", 1212525720⟩]
    rfl (by decide)
  exact ⟨(h.2.2.2 [.null, .null] rfl).1, (h.2.2.2 [.null, .null] rfl).2⟩
